import Mathlib

/-!
Verification of the EEG loading/preprocessing pipeline (`src/dataloader.py`,
`src/processor.py`, `src/utils.py`).

The repository is a thin orchestration layer over the external MNE /
scipy libraries.  We shallowly embed the repository's own code:

* `Dataloader` becomes an explicit record `LoaderState`; its methods become
  state-passing functions returning the post-call state together with an
  `Except PyError` result.  A raised Python exception is an `Except.error`;
  crucially, field assignments executed before the raise persist in the
  returned state, exactly as in Python.
* The parsed dataframe produced by `pandas.read_csv` (an external
  collaborator) is taken as input: a `DataFrame` records the number of
  columns and the list of rows.
* Calls into MNE are modelled by small functions that follow MNE's
  documented validation and, for the in-place signal transformations, by an
  operation trace (`MneOp`) appended to the raw object's history.  Object
  identity / in-place mutation of MNE raw objects is modelled by a heap of
  raw objects addressed by references, so that "the caller's original is
  not mutated" is a real statement.
* Numeric samples are rationals; scipy's unbiased excess kurtosis is
  embedded over `ℚ`.
-/

/-- A Python exception, by kind, with its message. -/
inductive PyError where
  | fileNotFound (msg : String)
  | valueError (msg : String)
  | typeError (msg : String)
  deriving Repr, DecidableEq

deriving instance DecidableEq for Except

/-- The result of `pandas.read_csv` after header handling (external
collaborator): a rectangular table with `ncols` columns, kept as a list of
rows.  `ncols` is carried explicitly so that the column count survives an
empty row list, as it does for a real dataframe. -/
structure DataFrame where
  ncols : Nat
  rows : List (List ℚ)
  deriving Repr, DecidableEq

/-- Well-formedness of a dataframe: every row has exactly `ncols` entries
(pandas dataframes are always rectangular). -/
def DataFrame.WF (df : DataFrame) : Prop :=
  ∀ r ∈ df.rows, r.length = df.ncols

instance (df : DataFrame) : Decidable df.WF := by
  unfold DataFrame.WF; infer_instance

/-- The column drop `df.drop(df.columns[list(drop_columns)], axis=1)` from
`Dataloader.load_data`: remove the columns whose index is listed. -/
def DataFrame.dropCols (df : DataFrame) (drop : List Nat) : DataFrame :=
  { ncols := ((List.range df.ncols).filter (fun j => j ∉ drop)).length,
    rows := df.rows.map (fun r =>
      ((r.enum.filter (fun p => p.1 ∉ drop)).map Prod.snd)) }

/-- The dataframe `load_data` goes on to transpose: the parsed frame after
the optional column drop.  `if drop_columns:` is Python truthiness, so the
drop runs only for a non-`None`, non-empty index list. -/
def DataFrame.afterDrops (df : DataFrame) (drop_columns : Option (List Nat)) :
    DataFrame :=
  match drop_columns with
  | some l => if l.isEmpty then df else df.dropCols l
  | none => df

/-- The transpose `df.to_numpy().T` from `Dataloader.load_data`: transpose the table so
that the result is channels × samples.  Row `j` of the result is column `j`
of the dataframe; the result has `df.ncols` rows of `df.rows.length`
entries each. -/
def DataFrame.npT (df : DataFrame) : List (List ℚ) :=
  (List.range df.ncols).map (fun j => df.rows.map (fun r => r.getD j 0))

/-- Channel metadata of `mne.create_info` (external collaborator). -/
structure Info where
  ch_names : List String
  sfreq : ℚ
  ch_types : List String
  deriving Repr, DecidableEq

/-- An `mne.io.RawArray` as far as the loader observes it: data, channel
metadata and the attached montage name. -/
structure MneRaw where
  data : List (List ℚ)
  info : Info
  montage : Option String
  deriving Repr, DecidableEq

/-- Modelled from the external MNE library's documented validation:
`mne.create_info` requires `ch_names` to be a list (the loader can pass it
`None`, which MNE rejects with a `TypeError`) and requires `ch_types` to
match `ch_names` in length (`ValueError` otherwise). -/
def mneCreateInfo (ch_names : Option (List String)) (sfreq : ℚ)
    (ch_types : List String) : Except PyError Info :=
  match ch_names with
  | none => .error (.typeError "ch_names must be an instance of list or tuple")
  | some ns =>
      if ch_types.length ≠ ns.length then
        .error (.valueError "ch_types and ch_names must be the same length")
      else
        .ok { ch_names := ns, sfreq := sfreq, ch_types := ch_types }

/-- Modelled from the external MNE library's documented validation:
`mne.io.RawArray(data, info)` requires the first data dimension to equal
the number of channels in `info`. -/
def mneRawArray (data : List (List ℚ)) (info : Info) : Except PyError MneRaw :=
  if data.length ≠ info.ch_names.length then
    .error (.valueError "len(data) does not match the number of channels in info")
  else
    .ok { data := data, info := info, montage := none }

/-- Montage attachment `raw.set_montage(montage_obj, match_case=False)`: attaching electrode
positions is delegated to MNE; we record the montage name. -/
def MneRaw.setMontage (raw : MneRaw) (montage : String) : MneRaw :=
  { raw with montage := some montage }

/-- The `ch_types` argument of `Dataloader.create_mne_raw`: a Python string,
a non-string `Sequence`, or a value of any other type (`isinstance` is
tested in that order, strings being sequences too in Python). -/
inductive ChTypesArg where
  | scalar (t : String)
  | seq (l : List String)
  | other
  deriving Repr, DecidableEq

/-- The mutable fields of a `Dataloader` instance (`Dataloader.__init__`). -/
structure LoaderState where
  sampling_rate : ℚ
  channel_names : List String
  raw_data : Option (List (List ℚ))
  actual_channel_names : Option (List String)
  _mne_raw : Option MneRaw
  deriving Repr, DecidableEq

/-- The constant `Dataloader.DEFAULT_CHANNEL_NAMES`. -/
def DEFAULT_CHANNEL_NAMES : List String :=
  ["C3", "C4", "O1", "O2", "Cz", "F3", "F4", "F7", "F8", "Fp1", "Fp2",
   "P3", "P4", "Pz", "T3", "T4", "T5", "T6"]

/-- Constructor `Dataloader.__init__(sampling_rate, channel_names, log_level)`; the
`mne.set_log_level` call is an external side effect with no bearing on the
loader's state. -/
def Dataloader.init (sampling_rate : ℚ)
    (channel_names : Option (List String)) : LoaderState :=
  { sampling_rate := sampling_rate,
    channel_names := channel_names.getD DEFAULT_CHANNEL_NAMES,
    raw_data := none,
    actual_channel_names := none,
    _mne_raw := none }

/-- Method `Dataloader.load_data(filepath, delimeter, header, drop_columns,
channel_names)`.  The file system and `pandas.read_csv` are external: the
argument `file` is `none` when the path does not exist and otherwise the
parsed (post-header) dataframe.  `if drop_columns:` is Python truthiness:
the drop runs only for a non-`None`, non-empty list.  The returned state is
the instance's state when the call ends, whether it returns or raises:
`self.raw_data` is assigned before channel names are validated, so it keeps
its new value even when the `ValueError` is raised. -/
def Dataloader.load_data (st : LoaderState) (file : Option DataFrame)
    (drop_columns : Option (List Nat)) (channel_names : Option (List String)) :
    LoaderState × Except PyError (List (List ℚ)) :=
  match file with
  | none => (st, .error (.fileNotFound "File not found"))
  | some df =>
      let df2 := df.afterDrops drop_columns
      let data_arr := df2.npT
      let st1 := { st with raw_data := some data_arr }
      let names := channel_names.getD st.channel_names
      if names.length < data_arr.length then
        (st1, .error (.valueError
          ("Not enough channel names provided: " ++ toString names.length ++
            " < " ++ toString data_arr.length)))
      else
        ({ st1 with actual_channel_names := some (names.take data_arr.length) },
          .ok data_arr)

/-- Method `Dataloader.create_mne_raw(ch_types, montage)`. -/
def Dataloader.create_mne_raw (st : LoaderState) (ch_types : ChTypesArg)
    (montage : String) : LoaderState × Except PyError MneRaw :=
  match st.raw_data with
  | none => (st, .error (.valueError "No data loaded. Call load_data() first."))
  | some data =>
      let n_channels := data.length
      let ch_types_res : Except PyError (List String) :=
        match ch_types with
        | .scalar t => .ok (List.replicate n_channels t)
        | .seq l =>
            if l.length ≠ n_channels then
              .error (.valueError
                ("Length of ch_types (" ++ toString l.length ++
                  ") does not match number of channels (" ++
                  toString n_channels ++ ")."))
            else .ok l
        | .other => .error (.typeError "ch_types must be a string or sequence of strings.")
      match ch_types_res with
      | .error e => (st, .error e)
      | .ok ch_types_list =>
          match mneCreateInfo st.actual_channel_names st.sampling_rate ch_types_list with
          | .error e => (st, .error e)
          | .ok info =>
              match mneRawArray data info with
              | .error e => (st, .error e)
              | .ok raw0 =>
                  let raw := raw0.setMontage montage
                  ({ st with _mne_raw := some raw }, .ok raw)

/-- Configuration record `EEGProcessingConfig` (`src/processor.py`): immutable preprocessing
configuration with the source's defaults. -/
structure EEGProcessingConfig where
  high_pass : Option ℚ := some 1
  low_pass : Option ℚ := some 80
  notch_freqs : List ℚ := [60, 120]
  picks : String := "eeg"
  fir_design : String := "firwin"
  reference : String := "average"
  projection : Bool := false
  deriving Repr, DecidableEq

/-- One in-place transformation applied to an MNE raw object.  The signal
mathematics is the external library's; what the repository controls — and
what we record — is which transformation runs, with which configuration
values, in which order. -/
inductive MneOp where
  | bandpass (l_freq h_freq : Option ℚ) (picks fir_design : String)
  | notch (freqs : List ℚ) (picks : String)
  | reference (ref : String) (projection : Bool)
  | icaApply (exclude : List Nat)
  deriving Repr, DecidableEq

/-- An `mne.io.BaseRaw` object as the processor observes it: whether its
data is materialized in memory and the trace of transformations applied to
it (in application order). -/
structure BaseRaw where
  preloaded : Bool
  history : List MneOp
  deriving Repr, DecidableEq

instance : Inhabited BaseRaw := ⟨{ preloaded := false, history := [] }⟩

/-- Python objects are heap references; MNE's filtering methods mutate the
referenced object in place.  A heap is the list of allocated raw objects,
and a reference is an index into it. -/
abbrev RawRef := Nat

abbrev Heap := List BaseRaw

/-- Copying `raw.copy()`: allocates a fresh, independent object with the same
contents and returns a reference to it. -/
def Heap.copyAlloc (h : Heap) (r : RawRef) : Heap × RawRef :=
  (h ++ [h.getD r default], h.length)

/-- Materialization `raw.load_data()`: materializes the referenced object's samples in
memory, in place. -/
def Heap.loadDataAt (h : Heap) (r : RawRef) : Heap :=
  h.set r { h.getD r default with preloaded := true }

/-- An in-place MNE transformation on the referenced object: its effect on
the samples is external, so it is recorded on the object's history. -/
def Heap.applyOp (h : Heap) (r : RawRef) (op : MneOp) : Heap :=
  h.set r { h.getD r default with
            history := (h.getD r default).history ++ [op] }

/-- Method `EEGProcessor._apply_bandpass_filter`: `raw.filter(l_freq=high_pass,
h_freq=low_pass, picks=picks, fir_design=fir_design, ...)`, in place. -/
def EEGProcessor.apply_bandpass_filter (cfg : EEGProcessingConfig)
    (h : Heap) (r : RawRef) : Heap :=
  h.applyOp r (.bandpass cfg.high_pass cfg.low_pass cfg.picks cfg.fir_design)

/-- Method `EEGProcessor._apply_notch_filter`: `raw.notch_filter(freqs=notch_freqs,
picks=picks, ...)`, in place. -/
def EEGProcessor.apply_notch_filter (cfg : EEGProcessingConfig)
    (h : Heap) (r : RawRef) : Heap :=
  h.applyOp r (.notch cfg.notch_freqs cfg.picks)

/-- Method `EEGProcessor._apply_reference`: `raw.set_eeg_reference(reference,
projection=projection)`, in place. -/
def EEGProcessor.apply_reference (cfg : EEGProcessingConfig)
    (h : Heap) (r : RawRef) : Heap :=
  h.applyOp r (.reference cfg.reference cfg.projection)

/-- Method `EEGProcessor.process(raw)`: `processed = raw.copy().load_data()`, then
bandpass, notch and reference on `processed`; returns the heap after the
call and the reference to the returned object. -/
def EEGProcessor.process (cfg : EEGProcessingConfig) (h : Heap)
    (raw : RawRef) : Heap × RawRef :=
  let hp := h.copyAlloc raw
  let h1 := hp.1.loadDataAt hp.2
  let h2 := EEGProcessor.apply_bandpass_filter cfg h1 hp.2
  let h3 := EEGProcessor.apply_notch_filter cfg h2 hp.2
  let h4 := EEGProcessor.apply_reference cfg h3 hp.2
  (h4, hp.2)

/-- Modelled from the external scipy library's documented estimator:
`scipy.stats.kurtosis(x, fisher=True, bias=False)` over one source time
series.  With more than three samples and nonzero second moment it applies
the unbiased correction; otherwise it returns the biased Fisher value. -/
def scipyKurtosis (x : List ℚ) : ℚ :=
  let n : ℚ := (x.length : ℚ)
  let μ : ℚ := x.sum / n
  let m2 : ℚ := ((x.map (fun v => (v - μ) ^ 2)).sum) / n
  let m4 : ℚ := ((x.map (fun v => (v - μ) ^ 4)).sum) / n
  if 3 < x.length ∧ m2 ≠ 0 then
    1 / ((n - 2) * (n - 3)) * ((n ^ 2 - 1) * m4 / m2 ^ 2 - 3 * (n - 1) ^ 2)
  else
    m4 / m2 ^ 2 - 3

/-- The fixed kurtosis threshold of `remove_artifacts_ica`. -/
def icaKurtosisThreshold : ℚ := 5

/-- The heuristic branch of `remove_artifacts_ica`:
`kurtosis_vals = kurtosis(sources, axis=1, fisher=True, bias=False)` and
`list(np.where(np.abs(kurtosis_vals) > threshold)[0])` — the indices, in
increasing order, of the components whose absolute excess kurtosis exceeds
the threshold. -/
def componentsToExcludeHeuristic (sources : List (List ℚ)) : List Nat :=
  let kurtosis_vals := sources.map scipyKurtosis
  (List.range kurtosis_vals.length).filter
    (fun i => icaKurtosisThreshold < |kurtosis_vals.getD i 0|)

/-- Python `int(...)` on a string of ASCII decimal digits. -/
def strToNat (s : String) : Nat :=
  s.foldl (fun n c => 10 * n + (c.toNat - 48)) 0

/-- Python `str.isdigit()` restricted to ASCII: nonempty and every
character a decimal digit. -/
def pyIsDigit (s : String) : Bool :=
  !s.isEmpty && s.all Char.isDigit

/-- The manual branch of `remove_artifacts_ica` on the already-split token
list: `[int(idx.strip()) for idx in toks if idx.strip().isdigit()]`. -/
def tokensToComponents (toks : List String) : List Nat :=
  (toks.filter (fun tok => pyIsDigit tok.trim)).map (fun tok => strToNat tok.trim)

/-- The manual branch of `remove_artifacts_ica` on the operator's raw
input: split on commas, then keep the integer value of each
whitespace-stripped all-digit token. -/
def parseManualComponents (comp_str : String) : List Nat :=
  tokensToComponents (comp_str.splitOn ",")

/-- Method `EEGProcessor.remove_artifacts_ica(raw, ...)`.  The ICA decomposition
is external: `sources` stands for `ica.get_sources(raw_copy).get_data()`,
the per-component source time series the fit produces, and `comp_str` for
the operator's interactive answer (read only when `manual` is true).  The
exclusion list built by the repository's code is returned alongside the
heap after the call and the reference to the cleaned object
(`ica.apply(raw_copy)` reconstructs the signal on the copy, in place). -/
def EEGProcessor.remove_artifacts_ica (h : Heap) (raw : RawRef)
    (sources : List (List ℚ)) (manual heuristic : Bool) (comp_str : String) :
    Heap × RawRef × List Nat :=
  let hp := h.copyAlloc raw
  let h1 := hp.1.loadDataAt hp.2
  let excl0 : List Nat :=
    if heuristic then componentsToExcludeHeuristic sources else []
  let excl : List Nat :=
    if manual then excl0 ++ parseManualComponents comp_str else excl0
  let h2 := h1.applyOp hp.2 (.icaApply excl)
  (h2, hp.2, excl)

/-- The object a heap reference denotes (`default` for a dangling one). -/
def Heap.obj (h : Heap) (r : RawRef) : BaseRaw := h.getD r default

theorem Heap.obj_eq (h : Heap) (r : RawRef) : h.obj r = (h[r]?).getD default := by
  simp [Heap.obj, List.getD_eq_getElem?_getD]

theorem Heap.obj_set_self (h : Heap) (r : RawRef) (x : BaseRaw)
    (hr : r < h.length) : Heap.obj (h.set r x) r = x := by
  simp [Heap.obj_eq, List.getElem?_set_eq_of_lt x hr]

theorem Heap.obj_set_ne (h : Heap) (r r' : RawRef) (x : BaseRaw)
    (hne : r ≠ r') : Heap.obj (h.set r x) r' = Heap.obj h r' := by
  simp [Heap.obj_eq, List.getElem?_set_ne hne]

theorem Heap.obj_concat_length (h : Heap) (x : BaseRaw) :
    Heap.obj (h ++ [x]) h.length = x := by
  simp [Heap.obj_eq]

theorem Heap.obj_append_left (h : Heap) (t : Heap) (r : RawRef)
    (hr : r < h.length) : Heap.obj (h ++ t) r = Heap.obj h r := by
  simp [Heap.obj_eq, List.getElem?_append, hr]

theorem Heap.obj_copyAlloc_new (h : Heap) (r : RawRef) :
    Heap.obj (h.copyAlloc r).1 (h.copyAlloc r).2 = Heap.obj h r := by
  simp [Heap.copyAlloc, Heap.obj_eq, Heap.obj]

theorem Heap.obj_loadDataAt_self (h : Heap) (r : RawRef) (hr : r < h.length) :
    Heap.obj (Heap.loadDataAt h r) r = { Heap.obj h r with preloaded := true } := by
  simpa [Heap.loadDataAt, Heap.obj] using
    Heap.obj_set_self h r { h.getD r default with preloaded := true } hr

theorem Heap.obj_applyOp_self (h : Heap) (r : RawRef) (op : MneOp)
    (hr : r < h.length) :
    Heap.obj (Heap.applyOp h r op) r = { Heap.obj h r with
      history := (Heap.obj h r).history ++ [op] } := by
  simpa [Heap.applyOp, Heap.obj] using
    Heap.obj_set_self h r
      { h.getD r default with history := (h.getD r default).history ++ [op] } hr

theorem Heap.obj_loadDataAt_ne (h : Heap) (r r' : RawRef) (hne : r ≠ r') :
    Heap.obj (Heap.loadDataAt h r) r' = Heap.obj h r' :=
  Heap.obj_set_ne h r r' _ hne

theorem Heap.obj_applyOp_ne (h : Heap) (r r' : RawRef) (op : MneOp)
    (hne : r ≠ r') : Heap.obj (Heap.applyOp h r op) r' = Heap.obj h r' :=
  Heap.obj_set_ne h r r' _ hne

theorem Heap.length_set (h : Heap) (r : RawRef) (x : BaseRaw) :
    (h.set r x).length = h.length := by simp

theorem Heap.length_loadDataAt (h : Heap) (r : RawRef) :
    (h.loadDataAt r).length = h.length := by simp [Heap.loadDataAt]

theorem Heap.length_applyOp (h : Heap) (r : RawRef) (op : MneOp) :
    (h.applyOp r op).length = h.length := by simp [Heap.applyOp]

theorem DataFrame.npT_length (df : DataFrame) : df.npT.length = df.ncols := by
  simp [DataFrame.npT]

theorem DataFrame.npT_row_length (df : DataFrame) (row : List ℚ)
    (h : row ∈ df.npT) : row.length = df.rows.length := by
  simp only [DataFrame.npT, List.mem_map, List.mem_range] at h
  obtain ⟨j, _, rfl⟩ := h
  simp

/-- C8. For every valid delimited text file that, after header handling
and column drops, contains `C` numeric columns and `S` rows (and for which
the effective channel-name list has at least `C` entries, so that the call
returns at all), `load_data` returns a matrix of shape `(C, S)`: the parsed
table transposed to channels × samples. -/
theorem load_data_shape (st : LoaderState) (df : DataFrame)
    (drop_columns : Option (List Nat)) (channel_names : Option (List String))
    (C S : Nat) (hC : (df.afterDrops drop_columns).ncols = C)
    (hS : (df.afterDrops drop_columns).rows.length = S)
    (hn : C ≤ (channel_names.getD st.channel_names).length) :
    ∃ data, (Dataloader.load_data st (some df) drop_columns channel_names).2
        = .ok data
      ∧ data.length = C ∧ ∀ row ∈ data, row.length = S := by
  have hlen : (df.afterDrops drop_columns).npT.length = C := by
    rw [DataFrame.npT_length, hC]
  refine ⟨(df.afterDrops drop_columns).npT, ?_, hlen, ?_⟩
  · simp only [Dataloader.load_data]
    rw [if_neg]
    rw [hlen]
    exact not_lt.mpr hn
  · intro row hrow
    rw [DataFrame.npT_row_length _ _ hrow, hS]

/-- Witness for `load_data_shape` at a concrete input: a 3-row, 2-column table loaded
with the default channel names yields a 2 × 3 matrix. -/
theorem load_data_shape_witness :
    ∃ data, (Dataloader.load_data (Dataloader.init 256 none)
        (some { ncols := 2, rows := [[1, 2], [3, 4], [5, 6]] }) none none).2
        = .ok data
      ∧ data.length = 2 ∧ ∀ row ∈ data, row.length = 3 :=
  load_data_shape (Dataloader.init 256 none)
    { ncols := 2, rows := [[1, 2], [3, 4], [5, 6]] } none none 2 3
    rfl rfl (by decide)

/-- C4. For every loaded matrix with `C` channels (the column count of
the post-drop table): a supplied channel-name list with fewer than `C`
entries makes `load_data` fail with the count-mismatch `ValueError`; with
at least `C` entries the call succeeds and retains exactly the first `C`
supplied names, in their original order. -/
theorem load_data_channel_name_count (st : LoaderState) (df : DataFrame)
    (drop_columns : Option (List Nat)) (ns : List String) :
    (ns.length < (df.afterDrops drop_columns).ncols →
      ∃ msg, (Dataloader.load_data st (some df) drop_columns (some ns)).2
          = .error (.valueError msg)) ∧
    ((df.afterDrops drop_columns).ncols ≤ ns.length →
      (Dataloader.load_data st (some df) drop_columns (some ns)).1.actual_channel_names
          = some (ns.take (df.afterDrops drop_columns).ncols)
        ∧ (ns.take (df.afterDrops drop_columns).ncols).length
            = (df.afterDrops drop_columns).ncols
        ∧ ∃ data,
            (Dataloader.load_data st (some df) drop_columns (some ns)).2
              = .ok data) := by
  constructor
  · intro hlt
    have hcond : (Option.getD (some ns) st.channel_names).length
        < (df.afterDrops drop_columns).npT.length := by
      rw [DataFrame.npT_length]
      simpa using hlt
    simp only [Dataloader.load_data]
    rw [if_pos hcond]
    exact ⟨_, rfl⟩
  · intro hge
    have hcond : ¬ ((Option.getD (some ns) st.channel_names).length
        < (df.afterDrops drop_columns).npT.length) := by
      rw [DataFrame.npT_length]
      simpa using not_lt.mpr hge
    refine ⟨?_, ?_, ⟨(df.afterDrops drop_columns).npT, ?_⟩⟩
    · simp only [Dataloader.load_data]
      rw [if_neg hcond]
      simp [DataFrame.npT_length]
    · rw [List.length_take, min_eq_left hge]
    · simp only [Dataloader.load_data]
      rw [if_neg hcond]

/-- Witness for `load_data_channel_name_count` at concrete inputs: zero names for a
one-column table raise the count-mismatch error; two names for a
one-column table are truncated to the first name. -/
theorem load_data_channel_name_count_witness :
    (∃ msg, (Dataloader.load_data (Dataloader.init 256 none)
        (some { ncols := 1, rows := [[0]] }) none (some [])).2
        = .error (.valueError msg)) ∧
    (Dataloader.load_data (Dataloader.init 256 none)
        (some { ncols := 1, rows := [[0]] }) none (some ["A", "B"])).1.actual_channel_names
      = some ["A"] :=
  ⟨(load_data_channel_name_count (Dataloader.init 256 none)
      { ncols := 1, rows := [[0]] } none []).1 (by decide),
    ((load_data_channel_name_count (Dataloader.init 256 none)
      { ncols := 1, rows := [[0]] } none ["A", "B"]).2 (by decide)).1⟩

/-- C1, counterexample. A `load_data` call that raises the
channel-name-count `ValueError` does not leave the stored state unchanged:
on a loader constructed with an empty channel-name list, loading a
one-column table raises the error, yet `raw_data` has been overwritten
(it is assigned before the channel names are validated). -/
theorem load_data_error_mutates_cex :
    ((Dataloader.load_data (Dataloader.init 256 (some []))
        (some { ncols := 1, rows := [[0]] }) none none).2
      = .error (.valueError "Not enough channel names provided: 0 < 1"))
    ∧ (Dataloader.load_data (Dataloader.init 256 (some []))
        (some { ncols := 1, rows := [[0]] }) none none).1.raw_data
      ≠ (Dataloader.init 256 (some [])).raw_data := by
  constructor
  · decide
  · decide

/-- C1, amended. For every `load_data` call that raises an error:
`actual_channel_names` is unchanged in all cases; a `FileNotFoundError`
leaves the whole stored state unchanged; but the channel-name-count
`ValueError` is raised only after `raw_data` has been overwritten with the
newly parsed, transposed matrix (every other field unchanged). -/
theorem load_data_error_state (st : LoaderState) (drop_columns : Option (List Nat))
    (channel_names : Option (List String)) :
    (Dataloader.load_data st none drop_columns channel_names
      = (st, .error (.fileNotFound "File not found")))
    ∧ (∀ df : DataFrame,
        (channel_names.getD st.channel_names).length
            < (df.afterDrops drop_columns).ncols →
        Dataloader.load_data st (some df) drop_columns channel_names
          = ({ st with raw_data := some (df.afterDrops drop_columns).npT },
              .error (.valueError ("Not enough channel names provided: "
                ++ toString (channel_names.getD st.channel_names).length
                ++ " < " ++ toString (df.afterDrops drop_columns).npT.length)))) := by
  constructor
  · rfl
  · intro df hlt
    have hcond : (channel_names.getD st.channel_names).length
        < (df.afterDrops drop_columns).npT.length := by
      rw [DataFrame.npT_length]
      exact hlt
    simp only [Dataloader.load_data]
    rw [if_pos hcond]

/-- Witness for `load_data_error_state` at concrete inputs: a missing file leaves a
fresh loader untouched; a one-column table with an empty effective name
list leaves everything but `raw_data` untouched. -/
theorem load_data_error_state_witness :
    (Dataloader.load_data (Dataloader.init 256 (some [])) none none none
      = (Dataloader.init 256 (some []), .error (.fileNotFound "File not found")))
    ∧ (Dataloader.load_data (Dataloader.init 256 (some []))
        (some { ncols := 1, rows := [[0]] }) none none
      = ({ Dataloader.init 256 (some []) with raw_data := some [[0]] },
          .error (.valueError "Not enough channel names provided: 0 < 1"))) :=
  ⟨(load_data_error_state (Dataloader.init 256 (some [])) none none).1,
    (load_data_error_state (Dataloader.init 256 (some [])) none none).2
      { ncols := 1, rows := [[0]] } (by decide)⟩

/-- C2, counterexample. A loader on which no `load_data` call has ever
succeeded need not get the documented precondition error from
`create_mne_raw`: after a `load_data` call that failed with the
channel-name-count `ValueError`, `raw_data` is already set, so
`create_mne_raw` runs past the precondition check and fails with an
unrelated `TypeError` (MNE rejecting `ch_names=None`) instead. -/
theorem create_mne_raw_precondition_cex :
    ((Dataloader.load_data (Dataloader.init 256 (some []))
        (some { ncols := 1, rows := [[0]] }) none none).2
      = .error (.valueError "Not enough channel names provided: 0 < 1"))
    ∧ ((Dataloader.create_mne_raw
        (Dataloader.load_data (Dataloader.init 256 (some []))
          (some { ncols := 1, rows := [[0]] }) none none).1
        (.scalar "eeg") "standard_1020").2
      = .error (.typeError "ch_names must be an instance of list or tuple"))
    ∧ ((Dataloader.create_mne_raw
        (Dataloader.load_data (Dataloader.init 256 (some []))
          (some { ncols := 1, rows := [[0]] }) none none).1
        (.scalar "eeg") "standard_1020").2
      ≠ .error (.valueError "No data loaded. Call load_data() first.")) := by
  refine ⟨by decide, by decide, by decide⟩

/-- C2, amended. For every loader whose stored `raw_data` is `None` —
in particular any instance on which `load_data` has never been called —
`create_mne_raw` raises exactly the documented precondition `ValueError`
("No data loaded. Call load_data() first.") and leaves the state
unchanged, whatever the `ch_types` and `montage` arguments. -/
theorem create_mne_raw_precondition (st : LoaderState) (ct : ChTypesArg)
    (m : String) (h : st.raw_data = none) :
    Dataloader.create_mne_raw st ct m
      = (st, .error (.valueError "No data loaded. Call load_data() first.")) := by
  simp only [Dataloader.create_mne_raw, h]

/-- Witness for `create_mne_raw_precondition` at a concrete input: a freshly
constructed loader. -/
theorem create_mne_raw_precondition_witness :
    Dataloader.create_mne_raw (Dataloader.init 256 none) (.scalar "eeg")
        "standard_1020"
      = (Dataloader.init 256 none,
          .error (.valueError "No data loaded. Call load_data() first.")) :=
  create_mne_raw_precondition (Dataloader.init 256 none) (.scalar "eeg")
    "standard_1020" rfl

/-- C9, counterexample. Uniqueness of channel names is not an invariant
maintained for every accepted input: construction accepts the duplicated
list `["A", "A"]` and stores it verbatim, and `load_data` on a two-column
table then succeeds and records the duplicated pair as
`actual_channel_names` without any error. -/
theorem channel_name_uniqueness_cex :
    ((Dataloader.init 256 (some ["A", "A"])).channel_names = ["A", "A"])
    ∧ ¬ (Dataloader.init 256 (some ["A", "A"])).channel_names.Nodup
    ∧ ((Dataloader.load_data (Dataloader.init 256 (some ["A", "A"]))
          (some { ncols := 2, rows := [[1, 2]] }) none none).2 = .ok [[1], [2]])
    ∧ ((Dataloader.load_data (Dataloader.init 256 (some ["A", "A"]))
          (some { ncols := 2, rows := [[1, 2]] }) none none).1.actual_channel_names
        = some ["A", "A"])
    ∧ ¬ ["A", "A"].Nodup := by
  refine ⟨by decide, by decide, by decide, by decide, by decide⟩

/-- C9, amended. No uniqueness check is performed: construction and
`load_data` store whatever names they are given.  What does hold is that
the default channel-name list is pairwise distinct, and that uniqueness is
preserved: a loader constructed without an explicit list (or from a
pairwise-distinct list) holds pairwise-distinct `channel_names`, and when
the effective name list of a successful `load_data` call is pairwise
distinct, the recorded `actual_channel_names` (its prefix) is too. -/
theorem channel_name_uniqueness (sr : ℚ) (ns : List String) (st : LoaderState)
    (df : DataFrame) (drop_columns : Option (List Nat))
    (channel_names : Option (List String)) :
    DEFAULT_CHANNEL_NAMES.Nodup
    ∧ (Dataloader.init sr none).channel_names.Nodup
    ∧ (ns.Nodup → (Dataloader.init sr (some ns)).channel_names.Nodup)
    ∧ ((channel_names.getD st.channel_names).Nodup →
        ∀ data, (Dataloader.load_data st (some df) drop_columns channel_names).2
            = .ok data →
          ∃ l, (Dataloader.load_data st (some df) drop_columns
                  channel_names).1.actual_channel_names = some l
            ∧ l.Nodup) := by
  refine ⟨by decide, ?_, fun h => h, ?_⟩
  · show DEFAULT_CHANNEL_NAMES.Nodup
    decide
  · intro hnd data hok
    by_cases hcond : (channel_names.getD st.channel_names).length
        < (df.afterDrops drop_columns).npT.length
    · simp only [Dataloader.load_data] at hok
      rw [if_pos hcond] at hok
      exact absurd hok (by simp)
    · simp only [Dataloader.load_data]
      rw [if_neg hcond]
      exact ⟨_, rfl, List.Nodup.sublist (List.take_sublist _ _) hnd⟩

/-- Witness for `channel_name_uniqueness` at concrete inputs: the default list is
unique; a loader built from the distinct list `["A", "B"]` keeps it; a
successful load on a one-column table records a unique name list. -/
theorem channel_name_uniqueness_witness :
    DEFAULT_CHANNEL_NAMES.Nodup
    ∧ (Dataloader.init 256 (some ["A", "B"])).channel_names.Nodup
    ∧ (∃ l, (Dataloader.load_data (Dataloader.init 256 (some ["A", "B"]))
          (some { ncols := 1, rows := [[0]] }) none none).1.actual_channel_names
            = some l
        ∧ l.Nodup) :=
  ⟨(channel_name_uniqueness 256 [] (Dataloader.init 256 none)
      { ncols := 1, rows := [[0]] } none none).1,
    (channel_name_uniqueness 256 ["A", "B"] (Dataloader.init 256 none)
      { ncols := 1, rows := [[0]] } none none).2.2.1 (by decide),
    (channel_name_uniqueness 256 ["A", "B"]
        (Dataloader.init 256 (some ["A", "B"]))
        { ncols := 1, rows := [[0]] } none none).2.2.2 (by decide)
      [[0]] (by decide)⟩

/-- C5. For every loaded matrix with `C` channels (and the matching
recorded channel names): `create_mne_raw` with a scalar (string) channel
type `t` succeeds and produces a per-channel type list of length `C` with
every entry `t`; with a per-channel sequence whose length differs from `C`
it fails with a `ValueError`; with an argument that is neither a string nor
a sequence it fails with a `TypeError`. -/
theorem create_mne_raw_ch_types (st : LoaderState) (montage : String)
    (data : List (List ℚ)) (chs : List String)
    (hdata : st.raw_data = some data)
    (hchs : st.actual_channel_names = some chs)
    (hlen : chs.length = data.length) :
    (∀ t : String, ∃ raw : MneRaw,
        (Dataloader.create_mne_raw st (.scalar t) montage).2 = .ok raw
        ∧ raw.info.ch_types.length = data.length
        ∧ ∀ x ∈ raw.info.ch_types, x = t)
    ∧ (∀ l : List String, l.length ≠ data.length →
        ∃ msg, (Dataloader.create_mne_raw st (.seq l) montage).2
          = .error (.valueError msg))
    ∧ ((Dataloader.create_mne_raw st .other montage).2
        = .error (.typeError "ch_types must be a string or sequence of strings.")) := by
  obtain ⟨sr, cn, rd, acn, mr⟩ := st
  obtain rfl : rd = some data := hdata
  obtain rfl : acn = some chs := hchs
  refine ⟨?_, ?_, ?_⟩
  · intro t
    refine ⟨MneRaw.setMontage
        { data := data,
          info := { ch_names := chs, sfreq := sr,
                    ch_types := List.replicate data.length t },
          montage := none } montage, ?_, ?_, ?_⟩
    · simp only [Dataloader.create_mne_raw, mneCreateInfo, mneRawArray]
      rw [if_neg (by simp [hlen])]
      simp [hlen, MneRaw.setMontage]
    · simp [MneRaw.setMontage, hlen]
    · simp [MneRaw.setMontage, List.eq_of_mem_replicate]
  · intro l hne
    simp only [Dataloader.create_mne_raw]
    rw [if_pos hne]
    exact ⟨_, rfl⟩
  · simp only [Dataloader.create_mne_raw]

/-- Witness for `create_mne_raw_ch_types` at a concrete loaded state (one channel,
name `"C3"`): the scalar type succeeds, a length-2 type list fails with a
`ValueError`, and a non-string non-sequence argument fails with a
`TypeError`. -/
theorem create_mne_raw_ch_types_witness :
    (∃ raw : MneRaw,
        (Dataloader.create_mne_raw
          { sampling_rate := 256, channel_names := ["C3"],
            raw_data := some [[1, 2]], actual_channel_names := some ["C3"],
            _mne_raw := none } (.scalar "eeg") "standard_1020").2 = .ok raw
        ∧ raw.info.ch_types.length = 1
        ∧ ∀ x ∈ raw.info.ch_types, x = "eeg")
    ∧ (∃ msg, (Dataloader.create_mne_raw
          { sampling_rate := 256, channel_names := ["C3"],
            raw_data := some [[1, 2]], actual_channel_names := some ["C3"],
            _mne_raw := none } (.seq ["eeg", "eeg"]) "standard_1020").2
        = .error (.valueError msg))
    ∧ ((Dataloader.create_mne_raw
          { sampling_rate := 256, channel_names := ["C3"],
            raw_data := some [[1, 2]], actual_channel_names := some ["C3"],
            _mne_raw := none } .other "standard_1020").2
        = .error (.typeError "ch_types must be a string or sequence of strings.")) := by
  have h := create_mne_raw_ch_types
    { sampling_rate := 256, channel_names := ["C3"],
      raw_data := some [[1, 2]], actual_channel_names := some ["C3"],
      _mne_raw := none } "standard_1020" [[1, 2]] ["C3"] rfl rfl rfl
  exact ⟨by simpa using h.1 "eeg", h.2.1 ["eeg", "eeg"] (by decide), h.2.2⟩

/-- Materialize-then-transform at a fixed reference: loading data in place
and then applying three operations at `L` yields the materialized object
with the three operations appended in order, and touches no other index. -/
theorem Heap.load_then_ops_obj (g : Heap) (L : RawRef) (a b c : MneOp)
    (hL : L < g.length) :
    Heap.obj (Heap.applyOp (Heap.applyOp (Heap.applyOp
        (Heap.loadDataAt g L) L a) L b) L c) L
      = { preloaded := true, history := (Heap.obj g L).history ++ [a, b, c] }
    ∧ ∀ r', r' ≠ L →
        Heap.obj (Heap.applyOp (Heap.applyOp (Heap.applyOp
            (Heap.loadDataAt g L) L a) L b) L c) r' = Heap.obj g r' := by
  set g1 := Heap.loadDataAt g L with hg1
  set g2 := Heap.applyOp g1 L a with hg2
  set g3 := Heap.applyOp g2 L b with hg3
  have hL1 : L < g1.length := by rw [hg1, Heap.length_loadDataAt]; exact hL
  have hL2 : L < g2.length := by rw [hg2, Heap.length_applyOp]; exact hL1
  have hL3 : L < g3.length := by rw [hg3, Heap.length_applyOp]; exact hL2
  constructor
  · have o1 := Heap.obj_loadDataAt_self g L hL
    have o2 := Heap.obj_applyOp_self g1 L a hL1
    have o3 := Heap.obj_applyOp_self g2 L b hL2
    have o4 := Heap.obj_applyOp_self g3 L c hL3
    rw [← hg1] at o1
    rw [o4, o3, o2, o1]
    simp
  · intro r' hr'
    have hne : L ≠ r' := fun hx => hr' hx.symm
    rw [Heap.obj_applyOp_ne g3 L r' c hne, hg3,
      Heap.obj_applyOp_ne g2 L r' b hne, hg2,
      Heap.obj_applyOp_ne g1 L r' a hne, hg1,
      Heap.obj_loadDataAt_ne g L r' hne]

/-- Single-operation version of `Heap.load_then_ops_obj`, for the ICA
path. -/
theorem Heap.load_then_op_obj (g : Heap) (L : RawRef) (a : MneOp)
    (hL : L < g.length) :
    Heap.obj (Heap.applyOp (Heap.loadDataAt g L) L a) L
      = { preloaded := true, history := (Heap.obj g L).history ++ [a] }
    ∧ ∀ r', r' ≠ L →
        Heap.obj (Heap.applyOp (Heap.loadDataAt g L) L a) r' = Heap.obj g r' := by
  set g1 := Heap.loadDataAt g L with hg1
  have hL1 : L < g1.length := by rw [hg1, Heap.length_loadDataAt]; exact hL
  constructor
  · have o1 := Heap.obj_loadDataAt_self g L hL
    have o2 := Heap.obj_applyOp_self g1 L a hL1
    rw [← hg1] at o1
    rw [o2, o1]
  · intro r' hr'
    have hne : L ≠ r' := fun hx => hr' hx.symm
    rw [Heap.obj_applyOp_ne g1 L r' a hne, hg1,
      Heap.obj_loadDataAt_ne g L r' hne]

/-- Characterization of `EEGProcessor.process` on the heap: it returns a
fresh reference (the old heap length) whose object is the materialized copy
of the input with the three filters appended in order, and leaves every
previously allocated object untouched. -/
theorem EEGProcessor.process_spec (cfg : EEGProcessingConfig) (h : Heap)
    (r : RawRef) :
    (EEGProcessor.process cfg h r).2 = h.length
    ∧ Heap.obj (EEGProcessor.process cfg h r).1 h.length
        = { preloaded := true,
            history := (Heap.obj h r).history
              ++ [MneOp.bandpass cfg.high_pass cfg.low_pass cfg.picks cfg.fir_design,
                  MneOp.notch cfg.notch_freqs cfg.picks,
                  MneOp.reference cfg.reference cfg.projection] }
    ∧ (∀ r', r' < h.length →
        Heap.obj (EEGProcessor.process cfg h r).1 r' = Heap.obj h r') := by
  have hL : h.length < (h ++ [Heap.obj h r]).length := by simp
  have key := Heap.load_then_ops_obj (h ++ [Heap.obj h r]) h.length
    (MneOp.bandpass cfg.high_pass cfg.low_pass cfg.picks cfg.fir_design)
    (MneOp.notch cfg.notch_freqs cfg.picks)
    (MneOp.reference cfg.reference cfg.projection) hL
  have hfst : (EEGProcessor.process cfg h r).1
      = Heap.applyOp (Heap.applyOp (Heap.applyOp
          (Heap.loadDataAt (h ++ [Heap.obj h r]) h.length) h.length
          (MneOp.bandpass cfg.high_pass cfg.low_pass cfg.picks cfg.fir_design))
          h.length (MneOp.notch cfg.notch_freqs cfg.picks))
          h.length (MneOp.reference cfg.reference cfg.projection) := rfl
  refine ⟨rfl, ?_, ?_⟩
  · rw [hfst, key.1, Heap.obj_concat_length]
  · intro r' hr'
    rw [hfst, key.2 r' (Nat.ne_of_lt hr'), Heap.obj_append_left h _ r' hr']

/-- Characterization of `EEGProcessor.remove_artifacts_ica` on the heap:
it returns a fresh reference (the old heap length) whose object is the
materialized copy of the input with the ICA application appended, together
with the exclusion list `heuristic ++ manual`, and leaves every previously
allocated object untouched. -/
theorem EEGProcessor.remove_artifacts_ica_spec (h : Heap) (r : RawRef)
    (sources : List (List ℚ)) (manual heuristic : Bool) (comp_str : String) :
    (EEGProcessor.remove_artifacts_ica h r sources manual heuristic comp_str).2.1
        = h.length
    ∧ (EEGProcessor.remove_artifacts_ica h r sources manual heuristic comp_str).2.2
        = (if heuristic then componentsToExcludeHeuristic sources else [])
          ++ (if manual then parseManualComponents comp_str else [])
    ∧ Heap.obj (EEGProcessor.remove_artifacts_ica h r sources manual heuristic
          comp_str).1 h.length
        = { preloaded := true,
            history := (Heap.obj h r).history
              ++ [MneOp.icaApply
                  ((if heuristic then componentsToExcludeHeuristic sources else [])
                    ++ (if manual then parseManualComponents comp_str else []))] }
    ∧ (∀ r', r' < h.length →
        Heap.obj (EEGProcessor.remove_artifacts_ica h r sources manual heuristic
            comp_str).1 r' = Heap.obj h r') := by
  have hL : h.length < (h ++ [Heap.obj h r]).length := by simp
  have hexcl : (EEGProcessor.remove_artifacts_ica h r sources manual heuristic
        comp_str).2.2
      = (if heuristic then componentsToExcludeHeuristic sources else [])
        ++ (if manual then parseManualComponents comp_str else []) := by
    simp only [EEGProcessor.remove_artifacts_ica]
    cases manual <;> cases heuristic <;> simp
  have key := Heap.load_then_op_obj (h ++ [Heap.obj h r]) h.length
    (MneOp.icaApply
      ((if heuristic then componentsToExcludeHeuristic sources else [])
        ++ (if manual then parseManualComponents comp_str else []))) hL
  have hfst : (EEGProcessor.remove_artifacts_ica h r sources manual heuristic
        comp_str).1
      = Heap.applyOp (Heap.loadDataAt (h ++ [Heap.obj h r]) h.length) h.length
          (MneOp.icaApply
            ((if heuristic then componentsToExcludeHeuristic sources else [])
              ++ (if manual then parseManualComponents comp_str else []))) := by
    simp only [EEGProcessor.remove_artifacts_ica]
    cases manual <;> cases heuristic <;> simp [Heap.copyAlloc, Heap.obj]
  refine ⟨rfl, hexcl, ?_, ?_⟩
  · rw [hfst, key.1, Heap.obj_concat_length]
  · intro r' hr'
    rw [hfst, key.2 r' (Nat.ne_of_lt hr'), Heap.obj_append_left h _ r' hr']

/-- C6. For every input container, `process` applies exactly the three
transformations — band-pass filter, then notch filter, then re-reference,
each with its configured parameters — in that fixed order, and returns the
resulting container. -/
theorem process_pipeline_order (cfg : EEGProcessingConfig) (h : Heap)
    (r : RawRef) :
    Heap.obj (EEGProcessor.process cfg h r).1 (EEGProcessor.process cfg h r).2
      = { preloaded := true,
          history := (Heap.obj h r).history
            ++ [MneOp.bandpass cfg.high_pass cfg.low_pass cfg.picks cfg.fir_design,
                MneOp.notch cfg.notch_freqs cfg.picks,
                MneOp.reference cfg.reference cfg.projection] } := by
  have hspec := EEGProcessor.process_spec cfg h r
  rw [hspec.1, hspec.2.1]

/-- C7. For every valid input reference, `process` and
`remove_artifacts_ica` leave the caller's original container (and every
other previously allocated container) unchanged: each works on a fresh
copy, distinct from the input reference, whose data is materialized in
memory. -/
theorem processor_no_mutation (cfg : EEGProcessingConfig) (h : Heap)
    (r : RawRef) (sources : List (List ℚ)) (manual heuristic : Bool)
    (comp_str : String) (hr : r < h.length) :
    (∀ r', r' < h.length →
        Heap.obj (EEGProcessor.process cfg h r).1 r' = Heap.obj h r')
    ∧ (EEGProcessor.process cfg h r).2 ≠ r
    ∧ (Heap.obj (EEGProcessor.process cfg h r).1
        (EEGProcessor.process cfg h r).2).preloaded = true
    ∧ (∀ r', r' < h.length →
        Heap.obj (EEGProcessor.remove_artifacts_ica h r sources manual
            heuristic comp_str).1 r' = Heap.obj h r')
    ∧ (EEGProcessor.remove_artifacts_ica h r sources manual heuristic
        comp_str).2.1 ≠ r
    ∧ (Heap.obj (EEGProcessor.remove_artifacts_ica h r sources manual
          heuristic comp_str).1
        (EEGProcessor.remove_artifacts_ica h r sources manual heuristic
          comp_str).2.1).preloaded = true := by
  have hp := EEGProcessor.process_spec cfg h r
  have hi := EEGProcessor.remove_artifacts_ica_spec h r sources manual
    heuristic comp_str
  refine ⟨hp.2.2, ?_, ?_, hi.2.2.2, ?_, ?_⟩
  · rw [hp.1]; exact Nat.ne_of_gt hr
  · rw [hp.1, hp.2.1]
  · rw [hi.1]; exact Nat.ne_of_gt hr
  · rw [hi.1, hi.2.2.1]

/-- Witness for `processor_no_mutation` at a concrete input: a one-object heap, the
reference `0`, and the default configuration. -/
theorem processor_no_mutation_witness :
    (Heap.obj (EEGProcessor.process {} [{ preloaded := false, history := [] }]
        0).1 0 = Heap.obj [{ preloaded := false, history := [] }] 0)
    ∧ (EEGProcessor.process {} [{ preloaded := false, history := [] }] 0).2 ≠ 0
    ∧ (Heap.obj (EEGProcessor.remove_artifacts_ica
          [{ preloaded := false, history := [] }] 0 [] false true "").1 0
        = Heap.obj [{ preloaded := false, history := [] }] 0)
    ∧ (EEGProcessor.remove_artifacts_ica
        [{ preloaded := false, history := [] }] 0 [] false true "").2.1 ≠ 0 := by
  have h := processor_no_mutation {} [{ preloaded := false, history := [] }]
    0 [] false true "" (by decide)
  exact ⟨h.1 0 (by decide), h.2.1, h.2.2.2.1 0 (by decide), h.2.2.2.2.1⟩

theorem getD_map_scipyKurtosis (sources : List (List ℚ)) (i : Nat)
    (hi : i < sources.length) :
    (sources.map scipyKurtosis).getD i 0 = scipyKurtosis (sources.getD i []) := by
  rw [List.getD_eq_getElem?_getD, List.getD_eq_getElem?_getD, List.getElem?_map,
    List.getElem?_eq_getElem hi]
  simp

theorem mem_componentsToExcludeHeuristic (sources : List (List ℚ)) (i : Nat) :
    i ∈ componentsToExcludeHeuristic sources
      ↔ i < sources.length
        ∧ icaKurtosisThreshold < |scipyKurtosis (sources.getD i [])| := by
  simp only [componentsToExcludeHeuristic, List.mem_filter, List.mem_range,
    List.length_map, decide_eq_true_eq]
  constructor
  · rintro ⟨hi, hcond⟩
    rw [getD_map_scipyKurtosis sources i hi] at hcond
    exact ⟨hi, hcond⟩
  · rintro ⟨hi, hcond⟩
    rw [← getD_map_scipyKurtosis sources i hi] at hcond
    exact ⟨hi, hcond⟩

/-- C3. In `remove_artifacts_ica` with `heuristic` enabled, a
component is flagged exactly when the absolute excess kurtosis of its
source time series exceeds the fixed threshold `5.0`; the final exclusion
additionally contains the human-entered indices exactly when `manual` is
enabled (the set-union of the two), and the reconstruction is applied with
exactly that exclusion list. -/
theorem remove_artifacts_ica_exclusion (h : Heap) (r : RawRef)
    (sources : List (List ℚ)) (manual : Bool) (comp_str : String) :
    (∀ i : Nat,
      i ∈ (EEGProcessor.remove_artifacts_ica h r sources manual true
            comp_str).2.2
        ↔ ((i < sources.length
              ∧ icaKurtosisThreshold < |scipyKurtosis (sources.getD i [])|)
            ∨ (manual = true ∧ i ∈ parseManualComponents comp_str)))
    ∧ Heap.obj (EEGProcessor.remove_artifacts_ica h r sources manual true
          comp_str).1
        (EEGProcessor.remove_artifacts_ica h r sources manual true comp_str).2.1
      = { preloaded := true,
          history := (Heap.obj h r).history
            ++ [MneOp.icaApply
                ((EEGProcessor.remove_artifacts_ica h r sources manual true
                  comp_str).2.2)] } := by
  have hspec := EEGProcessor.remove_artifacts_ica_spec h r sources manual true
    comp_str
  constructor
  · intro i
    rw [hspec.2.1]
    rw [← mem_componentsToExcludeHeuristic]
    cases manual <;> simp
  · rw [hspec.1, hspec.2.2.1, hspec.2.1]

/-- C10. The operator's comma-separated answer is parsed by keeping
exactly the tokens that are all decimal digits after stripping whitespace:
such a token contributes its integer value at its position, and every
other token (negative, malformed, or non-numeric) is silently discarded —
it contributes nothing and raises no error. -/
theorem manual_index_parsing (pre post : List String) (tok : String)
    (s : String) :
    (tokensToComponents (pre ++ tok :: post)
      = tokensToComponents pre
        ++ (if pyIsDigit tok.trim then [strToNat tok.trim] else [])
        ++ tokensToComponents post)
    ∧ (∀ v : Nat, v ∈ parseManualComponents s
        ↔ ∃ tok2, tok2 ∈ s.splitOn ","
            ∧ pyIsDigit tok2.trim = true ∧ strToNat tok2.trim = v) := by
  constructor
  · by_cases hd : pyIsDigit tok.trim <;>
      simp [tokensToComponents, hd]
  · intro v
    simp only [parseManualComponents, tokensToComponents, List.mem_map,
      List.mem_filter]
    constructor
    · rintro ⟨tok2, ⟨h1, h2⟩, h3⟩
      exact ⟨tok2, h1, h2, h3⟩
    · rintro ⟨tok2, h1, h2, h3⟩
      exact ⟨tok2, ⟨h1, h2⟩, h3⟩
